import Mathlib

/-!
Verification of the kiro-openai-gateway billing, auth and streaming-translation
subsystems against their natural-language specification.

The Python sources are shallowly embedded:

* `decimal.Decimal` values are embedded as exact rationals (`ℚ`).  Python
  `Decimal` arithmetic in the billing path (multiplication, addition, division
  by `1_000_000`, `quantize`) is exact for all magnitudes occurring there
  (well inside the default 28-significant-digit context), so the embedding is
  faithful on the billing domain.
* Python `dict.get` chains over usage payloads are embedded as `Option` fields.
* `float(...)` (CPython `float`, IEEE-754 binary64) is embedded as exact
  rounding of a rational to 53 significand bits, round-to-nearest, ties to
  even.  Exponent-range clamping (overflow/subnormals) is not modelled: all
  billing amounts lie well inside the normal range.
* The MongoDB credits collection is embedded as an optional balance field;
  the conditional-update primitive `update_one({balance: {$gte: a}}, {$inc: ...})`
  is embedded as a guarded subtraction.
-/

/-! ## Decimal quantization (src/kiro/billing.py `_quantize_decimal`) -/

/-- Round a rational to the nearest integer, ties away from zero.  This is
`decimal.ROUND_HALF_UP` applied after scaling. -/
def roundHalfUp (q : ℚ) : ℤ :=
  if 0 ≤ q then ⌊q + 1 / 2⌋ else -⌊-q + 1 / 2⌋

/-- Embedding of `_quantize_decimal` (billing.py lines 78-90): quantize `value`
to `max(BILLING_DECIMAL_PLACES, 0)` fractional digits with `ROUND_HALF_UP`.
`decimalPlaces` is the configured `BILLING_DECIMAL_PLACES`. -/
def quantize_decimal (decimalPlaces : ℤ) (value : ℚ) : ℚ :=
  let places := (max decimalPlaces 0).toNat
  ((roundHalfUp (value * (10 : ℚ) ^ places) : ℤ) : ℚ) / (10 : ℚ) ^ places

/-! ## Model pricing and usage extraction (src/kiro/billing.py) -/

/-- Embedding of the `ModelPricing` dataclass (billing.py lines 43-62); the
`model_id` metadata field is omitted since no arithmetic depends on it. -/
structure ModelPricing where
  input_price_per_mtok : ℚ
  output_price_per_mtok : ℚ
  cache_write_price_per_mtok : ℚ
  cache_hit_price_per_mtok : ℚ
  billing_multiplier : ℚ
deriving DecidableEq

/-- A usage payload: the eight token-count keys read by
`_extract_usage_tokens` (billing.py lines 226-250).  `none` means the key is
absent from the dict; a present value is its `_safe_decimal` conversion
(integers convert exactly; a present non-numeric value converts to the
fallback `0` and is representable as `some 0`). -/
structure UsageDict where
  prompt_tokens : Option ℚ := none
  input_tokens : Option ℚ := none
  completion_tokens : Option ℚ := none
  output_tokens : Option ℚ := none
  cache_write_tokens : Option ℚ := none
  cache_creation_input_tokens : Option ℚ := none
  cache_hit_tokens : Option ℚ := none
  cache_read_input_tokens : Option ℚ := none
deriving DecidableEq

/-- `usage.get(primary_key, usage.get(fallback_key, 0))`. -/
def dictGet2 (primary fallback : Option ℚ) : ℚ :=
  match primary with
  | some v => v
  | none => fallback.getD 0

/-- Extracted token counters (billing.py lines 245-250). -/
structure ExtractedTokens where
  prompt_tokens : ℚ
  completion_tokens : ℚ
  cache_write_tokens : ℚ
  cache_hit_tokens : ℚ

/-- Embedding of `_extract_usage_tokens` (billing.py lines 226-250). -/
def extract_usage_tokens (usage : UsageDict) : ExtractedTokens where
  prompt_tokens := max (dictGet2 usage.prompt_tokens usage.input_tokens) 0
  completion_tokens := max (dictGet2 usage.completion_tokens usage.output_tokens) 0
  cache_write_tokens := max (dictGet2 usage.cache_write_tokens usage.cache_creation_input_tokens) 0
  cache_hit_tokens := max (dictGet2 usage.cache_hit_tokens usage.cache_read_input_tokens) 0

/-- Embedding of `calculate_charge_from_usage` (billing.py lines 253-291).
The global config read `BILLING_ENABLED` and the resolved pricing row
(`_resolve_model_pricing(model_id)`) are passed explicitly; the claims under
verification quantify over the pricing row, so model-name resolution
(`src/kiro/model_resolver.py`, not part of the billing arithmetic) is not
re-modelled here. -/
def calculate_charge_from_usage (billingEnabled : Bool) (decimalPlaces : ℤ)
    (pricing : ModelPricing) (usage : UsageDict) : ℚ :=
  if !billingEnabled then 0
  else
    let tokens := extract_usage_tokens usage
    let per_million : ℚ := 1000000
    let subtotal :=
      (tokens.prompt_tokens * pricing.input_price_per_mtok
        + tokens.completion_tokens * pricing.output_price_per_mtok
        + tokens.cache_write_tokens * pricing.cache_write_price_per_mtok
        + tokens.cache_hit_tokens * pricing.cache_hit_price_per_mtok) / per_million
    let charged := subtotal * pricing.billing_multiplier
    quantize_decimal decimalPlaces (max charged 0)

/-- Embedding of `calculate_preflight_charge` (billing.py lines 294-312). -/
def calculate_preflight_charge (billingEnabled : Bool) (decimalPlaces : ℤ)
    (pricing : ModelPricing) (prompt_tokens tool_tokens : ℤ) : ℚ :=
  let usage : UsageDict :=
    { prompt_tokens := some ((max (prompt_tokens + tool_tokens) 0 : ℤ) : ℚ)
      completion_tokens := some 0
      cache_write_tokens := some 0
      cache_hit_tokens := some 0 }
  calculate_charge_from_usage billingEnabled decimalPlaces pricing usage

/-! ## IEEE-754 binary64 model (CPython `float(...)` in mongodb_store.py) -/

/-- `2 ^ k` as a rational, for an integer exponent. -/
def pow2z (k : ℤ) : ℚ := (2 : ℚ) ^ k

/-- Fuel-bounded `⌊log₂ n⌋`; called with fuel `n` it is total and exact for
every positive `n`. -/
def natLog2 : ℕ → ℕ → ℕ
  | 0, _ => 0
  | fuel + 1, n => if n < 2 then 0 else natLog2 fuel (n / 2) + 1

/-- `⌊log₂ q⌋` for a positive rational, computed from the bit lengths of
numerator and denominator with a one-step correction. -/
def floorLog2 (q : ℚ) : ℤ :=
  let a := q.num.toNat
  let k0 : ℤ := (natLog2 a a : ℤ) - (natLog2 q.den q.den : ℤ)
  if pow2z k0 ≤ q then k0 else k0 - 1

/-- Round a rational to the nearest integer, ties to even (IEEE-754 default
rounding of the scaled significand). -/
def roundHalfEven (q : ℚ) : ℤ :=
  let n := ⌊q⌋
  let frac := q - (n : ℚ)
  if frac < 1 / 2 then n
  else if (1 : ℚ) / 2 < frac then n + 1
  else if n % 2 = 0 then n else n + 1

/-- Binary64 rounding of a positive rational: round the significand to 53
bits, round-to-nearest ties-to-even. -/
def roundFloat64Pos (q : ℚ) : ℚ :=
  let e := floorLog2 q
  ((roundHalfEven (q * pow2z (52 - e)) : ℤ) : ℚ) * pow2z (e - 52)

/-- Model of CPython `float(decimal_value)`: the nearest IEEE-754 binary64
value (ties to even).  Exponent-range clamping (overflow, subnormal flushing)
is not modelled; every billing amount lies well inside the normal range. -/
def roundFloat64 (q : ℚ) : ℚ :=
  if q = 0 then 0
  else if 0 < q then roundFloat64Pos q
  else -roundFloat64Pos (-q)

/-! ## Credits store (src/kiro/mongodb_store.py) -/

/-- The balance field of the credits document of a user.  `missing` also covers an
empty/absent document projection (`if not doc or FIELD not in doc`); `invalid`
is a present value that `_to_decimal` cannot convert (its `ValueError` is
caught by `get_credit_balance`, which then returns `None`). -/
inductive BalanceField where
  | missing : BalanceField
  | invalid : BalanceField
  | val : ℚ → BalanceField
deriving DecidableEq

/-- Embedding of `get_credit_balance` (mongodb_store.py lines 155-175): the
credits document for the user, or `none` when the row does not exist. -/
def get_credit_balance (doc : Option BalanceField) : Option ℚ :=
  match doc with
  | none => none
  | some .missing => none
  | some .invalid => none
  | some (.val q) => some q

/-- Embedding of `has_sufficient_credits` (mongodb_store.py lines 178-192). -/
def has_sufficient_credits (doc : Option BalanceField) (required_credits : ℚ) : Bool :=
  match get_credit_balance doc with
  | none => false
  | some balance => required_credits ≤ balance

/-- Embedding of `deduct_credits_atomic` (mongodb_store.py lines 195-224).
The source converts the `Decimal` amount to a binary float
(`amount_float = float(amount)`) and issues a conditional
`update_one({balance: {$gte: amount_float}}, {$inc: {balance: -amount_float}})`.
A missing row, a missing balance field or a non-numeric balance matches no
document, so the update modifies nothing and the function returns `False`.
Returns `(modified_count == 1, new document state)`. -/
def deduct_credits_atomic (doc : Option BalanceField) (amount : ℚ) :
    Bool × Option BalanceField :=
  if amount ≤ 0 then (true, doc)
  else
    let amount_float := roundFloat64 amount
    match doc with
    | some (.val balance) =>
        if amount_float ≤ balance then (true, some (.val (balance - amount_float)))
        else (false, doc)
    | _ => (false, doc)

/-! ## Billing enforcement and deduction (src/kiro/billing.py) -/

/-- Embedding of `ensure_user_has_sufficient_credits` (billing.py lines
315-335).  `.error` stands for raising `InsufficientCreditsError`. -/
def ensure_user_has_sufficient_credits (billingEnabled enforce : Bool)
    (doc : Option BalanceField) (required_credits : ℚ) : Except String Unit :=
  if !billingEnabled || !enforce then .ok ()
  else if required_credits ≤ 0 then .ok ()
  else if !has_sufficient_credits doc required_credits then
    .error "InsufficientCreditsError"
  else .ok ()

/-- Embedding of `deduct_credits_for_usage` (billing.py lines 338-365):
compute the charge, and when positive deduct it atomically; raise
`InsufficientCreditsError` when the conditional update modifies nothing.
Returns the outcome together with the resulting ledger state. -/
def deduct_credits_for_usage (billingEnabled : Bool) (decimalPlaces : ℤ)
    (pricing : ModelPricing) (usage : UsageDict) (doc : Option BalanceField) :
    Except String ℚ × Option BalanceField :=
  let charge := calculate_charge_from_usage billingEnabled decimalPlaces pricing usage
  if charge ≤ 0 then (.ok 0, doc)
  else
    let r := deduct_credits_atomic doc charge
    if !r.1 then (.error "InsufficientCreditsError", r.2)
    else (.ok charge, r.2)

/-! ## JSON values and `_safe_json_loads`
(src/kiro_gateway/anthropic_converters.py lines 270-277) -/

/-- A JSON value, as produced by `json.loads`. -/
inductive Json where
  | null : Json
  | bool : Bool → Json
  | num : ℚ → Json
  | str : String → Json
  | arr : List Json → Json
  | obj : List (String × Json) → Json

/-- Whether a JSON value is an object (a Python `dict`). -/
def Json.isObj : Json → Bool
  | .obj _ => true
  | _ => false

/-- Embedding of `_safe_json_loads` (anthropic_converters.py lines 270-277).
`json.loads` is modelled as an arbitrary parse function
`loads : String → Option Json`, where `none` stands for any exception raised
by the parser; the wrapper under verification is independent of the JSON
grammar itself. -/
def safe_json_loads (loads : String → Option Json) (value : String) : Json :=
  match loads value with
  | none => .obj [("_raw", .str value)]
  | some parsed =>
    match parsed with
    | .obj fields => .obj fields
    | other => .obj [("value", other)]

/-- `func.get("arguments") or "{}"`: an absent or empty argument string is
replaced by `"{}"` (anthropic_converters.py line 95, anthropic_streaming.py
line 118). -/
def argsOrEmptyObj (arguments : Option String) : String :=
  match arguments with
  | none => "{}"
  | some s => if s = "" then "{}" else s

/-! ## Anthropic content blocks and message conversion
(src/kiro_gateway/anthropic_converters.py) -/

/-- A JSON-ish value appearing as Anthropic message content, restricted to the
shapes `_anthropic_content_to_text` (anthropic_converters.py lines 248-267)
distinguishes.  `otherDict` carries the `json.dumps` rendering of a dict that
has neither `type == "text"` nor a string `text` field; `nonDictScalar`
carries the `str()` rendering of a non-dict, non-list, non-string scalar. -/
inductive AVal where
  | nullv : AVal
  | strv : String → AVal
  | arr : List AVal → AVal
  | textDict : Option String → AVal
  | dictWithText : String → AVal
  | otherDict : String → AVal
  | nonDictScalar : String → AVal

mutual

/-- Embedding of `_anthropic_content_to_text` (anthropic_converters.py lines
248-267).  In a list, a `{"type": "text"}` dict contributes
`item.get("text") or ""`; other items recurse.  At top level a
`{"type": "text"}` dict yields its text (falsy text becomes `""`), a dict
with a string `text` field yields that string, any other dict yields its
`json.dumps` rendering, and a non-dict scalar yields `str(content)`. -/
def anthropic_content_to_text : AVal → String
  | .nullv => ""
  | .strv s => s
  | .arr items => contentPartsToText items
  | .textDict t => t.getD ""
  | .dictWithText s => s
  | .otherDict dumped => dumped
  | .nonDictScalar rendered => rendered

/-- The `"".join(parts)` accumulation over a content list
(anthropic_converters.py lines 254-260). -/
def contentPartsToText : List AVal → String
  | [] => ""
  | item :: rest =>
    (match item with
     | .textDict t => t.getD ""
     | other => anthropic_content_to_text other) ++ contentPartsToText rest

end

/-- A block of an Anthropic user message whose content is a list.  Blocks that
are not dicts (`nonDict`) are skipped by `_convert_anthropic_user_message`;
`text` is a `{"type": "text"}` dict; `toolResult` is a `{"type":
"tool_result"}` dict with optional `tool_use_id` and `content`; `otherBlock`
is any other dict (kept as a text placeholder via
`_anthropic_content_to_text`). -/
inductive ABlock where
  | text : Option String → ABlock
  | toolResult : Option String → Option AVal → ABlock
  | otherBlock : AVal → ABlock
  | nonDict : ABlock

/-- The content of an Anthropic message: a plain string, `None`, a list of
blocks, or any other value. -/
inductive AContent where
  | strC : String → AContent
  | noneC : AContent
  | listC : List ABlock → AContent
  | otherC : AVal → AContent

/-- The content carried by an OpenAI-form `ChatMessage` after conversion:
either a plain string, a list of `{"type": "text", "text": ...}` dicts
(represented by their text strings), or an Anthropic content value passed
through structurally. -/
inductive MsgContent where
  | strM : String → MsgContent
  | textBlocks : List String → MsgContent
  | passthrough : AContent → MsgContent

/-- Embedding of the pydantic `ChatMessage` fields used by the converter. -/
structure ChatMessage where
  role : String
  content : MsgContent
  tool_call_id : Option String := none

/-- An Anthropic message parameter (role plus content). -/
structure AnthropicMessageParam where
  role : String
  content : AContent

/-- Embedding of the block loop of `_convert_anthropic_user_message`
(anthropic_converters.py lines 214-232): accumulate text blocks and tool
messages in block order. -/
def splitUserBlocks : List ABlock → List String × List ChatMessage
  | [] => ([], [])
  | b :: rest =>
    let r := splitUserBlocks rest
    match b with
    | .toolResult tuid content =>
      let tool_use_id := (tuid.getD "")
      let tool_text := anthropic_content_to_text (content.getD .nullv)
      (r.1, { role := "tool", content := .strM tool_text,
              tool_call_id := some tool_use_id } :: r.2)
    | .text t => ((t.getD "") :: r.1, r.2)
    | .otherBlock v => (anthropic_content_to_text v :: r.1, r.2)
    | .nonDict => r

/-- Text rendering of an `AContent` through `_anthropic_content_to_text`. -/
def acontent_to_text : AContent → String
  | .strC s => s
  | .noneC => ""
  | .listC blocks => anthropic_content_to_text (.arr (blocks.map fun b =>
      match b with
      | .text t => .textDict t
      | .toolResult _ _ => .otherDict ""
      | .otherBlock v => v
      | .nonDict => .nullv))
  | .otherC v => anthropic_content_to_text v

/-- Embedding of `_convert_anthropic_user_message` (anthropic_converters.py
lines 196-238): a string / `None` / non-list content becomes an optional
plain `user` message; a block list is split into one optional `user` message
made of the text-ish blocks and one `tool` message per `tool_result` block. -/
def convert_anthropic_user_message (content : AContent) :
    Option ChatMessage × List ChatMessage :=
  match content with
  | .strC s =>
    if s ≠ "" then (some { role := "user", content := .strM s }, []) else (none, [])
  | .noneC => (none, [])
  | .listC blocks =>
    let r := splitUserBlocks blocks
    let user_message : Option ChatMessage :=
      if r.1 ≠ [] then some { role := "user", content := .textBlocks r.1 } else none
    (user_message, r.2)
  | .otherC v =>
    let text := anthropic_content_to_text v
    if text ≠ "" then (some { role := "user", content := .strM text }, []) else (none, [])

/-- Embedding of `_anthropic_messages_to_openai_messages`
(anthropic_converters.py lines 167-193). -/
def anthropic_messages_to_openai_messages
    (messages : List AnthropicMessageParam) : List ChatMessage :=
  match messages with
  | [] => []
  | msg :: rest =>
    let tail := anthropic_messages_to_openai_messages rest
    if msg.role = "user" then
      let r := convert_anthropic_user_message msg.content
      (match r.1 with
       | some um => um :: r.2
       | none => r.2) ++ tail
    else if msg.role = "assistant" then
      { role := "assistant", content := .passthrough msg.content } :: tail
    else if msg.role = "system" then
      let system_text := acontent_to_text msg.content
      (if system_text ≠ "" then
        [{ role := "system", content := .strM system_text }]
      else []) ++ tail
    else
      { role := msg.role, content := .passthrough msg.content } :: tail

/-! ## Anthropic SSE encoder (src/kiro_gateway/anthropic_streaming.py) -/

/-- One element of an OpenAI tool-call delta
(`delta.tool_calls[i]`): optional `id` and nested `function` fields. -/
structure ToolCallDelta where
  id : Option String := none
  name : Option String := none
  arguments : Option String := none
deriving DecidableEq

/-- The `usage` object of an OpenAI chunk (fields read by the encoder). -/
structure OUsage where
  prompt_tokens : Option ℤ := none
  completion_tokens : Option ℤ := none

/-- A parsed OpenAI streaming chunk: the fields the encoder reads from
`choices[0]` and `usage`.  `content = some ""` models a present-but-empty
text delta (falsy, hence not emitted). -/
structure OChunk where
  finish_reason : Option String := none
  usage : Option OUsage := none
  content : Option String := none
  tool_calls : List ToolCallDelta := []

/-- One item of the upstream OpenAI SSE iteration, as seen by the encoder
loop (anthropic_streaming.py lines 73-83).  Lines without a `data:` prefix,
empty payloads, `[DONE]` payloads and JSON-parse failures are each skipped by
a `continue`; `raisesError` marks the point where the upstream async
generator raises (the `except Exception` path). -/
inductive SSEItem where
  | notData : SSEItem
  | doneOrEmpty : SSEItem
  | malformed : SSEItem
  | chunk : OChunk → SSEItem
  | raisesError : String → SSEItem

/-- Embedding of `_finish_reason_to_stop_reason` (anthropic_converters.py
lines 121-128). -/
def finish_reason_to_stop_reason (finish_reason : Option String)
    (tool_calls : List ToolCallDelta) : String :=
  if finish_reason = some "length" then "max_tokens"
  else if finish_reason = some "tool_calls" || !tool_calls.isEmpty then "tool_use"
  else "end_turn"

/-- A typed Anthropic SSE event.  `_sse_event(name, payload)` string
formatting is abstracted to the event tag plus the payload fields the claims
concern; `content_block_start_tool` carries the fully parsed `input` object
of the `tool_use` block. -/
inductive AnthEvent where
  | message_start : String → AnthEvent
  | content_block_start_text : ℕ → AnthEvent
  | content_block_start_tool : ℕ → String → String → Json → AnthEvent
  | content_block_delta : ℕ → String → AnthEvent
  | content_block_stop : ℕ → AnthEvent
  | message_delta : String → ℤ → ℤ → AnthEvent
  | message_stop : AnthEvent
  | errorEvent : String → AnthEvent

/-- Mutable loop state of `stream_openai_sse_to_anthropic_sse`
(anthropic_streaming.py lines 39-44). -/
structure EncState where
  content_block_index : ℕ
  text_block_open : Bool
  tool_calls_seen : List ToolCallDelta
  finish_reason : Option String
  usage : Option OUsage

/-- The per-tool-call event emission (anthropic_streaming.py lines 115-137):
each tool call increments the block index and yields a `content_block_start`
(type `tool_use`, with safe-parsed input) immediately followed by a
`content_block_stop`. -/
def emitToolBlocks (loads : String → Option Json) (idx : ℕ) :
    List ToolCallDelta → List AnthEvent × ℕ
  | [] => ([], idx)
  | tc :: rest =>
    let idx1 := idx + 1
    let ev := AnthEvent.content_block_start_tool idx1 (tc.id.getD "")
      (tc.name.getD "") (safe_json_loads loads (argsOrEmptyObj tc.arguments))
    let r := emitToolBlocks loads idx1 rest
    (ev :: AnthEvent.content_block_stop idx1 :: r.1, r.2)

/-- `int((usage or {}).get(key) or 0)`. -/
def usageField (usage : Option OUsage) (f : OUsage → Option ℤ) : ℤ :=
  match usage with
  | none => 0
  | some u => (f u).getD 0

/-- The trailing events of a normally terminated stream
(anthropic_streaming.py lines 146-164). -/
def encodeClosing (st : EncState) : List AnthEvent :=
  (if st.text_block_open then [AnthEvent.content_block_stop st.content_block_index] else [])
    ++ [AnthEvent.message_delta
          (finish_reason_to_stop_reason st.finish_reason st.tool_calls_seen)
          (usageField st.usage OUsage.completion_tokens)
          (usageField st.usage OUsage.prompt_tokens),
        AnthEvent.message_stop]

/-- The `async for` loop body plus termination of
`stream_openai_sse_to_anthropic_sse` (anthropic_streaming.py lines 72-164).
When the upstream generator raises, the encoder emits a single `error` event
and returns (lines 139-144); otherwise it falls through to the closing
events. -/
def encodeLoop (loads : String → Option Json) (st : EncState) :
    List SSEItem → List AnthEvent
  | [] => encodeClosing st
  | item :: rest =>
    match item with
    | .notData => encodeLoop loads st rest
    | .doneOrEmpty => encodeLoop loads st rest
    | .malformed => encodeLoop loads st rest
    | .raisesError msg => [AnthEvent.errorEvent msg]
    | .chunk c =>
      let st1 := { st with
        finish_reason := if c.finish_reason.isSome then c.finish_reason else st.finish_reason
        usage := if c.usage.isSome then c.usage else st.usage }
      let textEvents :=
        match c.content with
        | some t => if t ≠ "" then [AnthEvent.content_block_delta st1.content_block_index t] else []
        | none => []
      if !c.tool_calls.isEmpty then
        let st2 := { st1 with tool_calls_seen := st1.tool_calls_seen ++ c.tool_calls }
        let stopEvents :=
          if st2.text_block_open then [AnthEvent.content_block_stop st2.content_block_index] else []
        let st3 := { st2 with text_block_open := false }
        let r := emitToolBlocks loads st3.content_block_index c.tool_calls
        let st4 := { st3 with content_block_index := r.2 }
        textEvents ++ stopEvents ++ r.1 ++ encodeLoop loads st4 rest
      else
        textEvents ++ encodeLoop loads st1 rest

/-- Embedding of `stream_openai_sse_to_anthropic_sse`
(anthropic_streaming.py lines 33-164): the prologue `message_start` and text
`content_block_start` are emitted before the `try` block, then the loop runs
over the upstream items. -/
def stream_openai_sse_to_anthropic_sse (loads : String → Option Json)
    (model : String) (items : List SSEItem) : List AnthEvent :=
  AnthEvent.message_start model
    :: AnthEvent.content_block_start_text 0
    :: encodeLoop loads
        { content_block_index := 0, text_block_open := true,
          tool_calls_seen := [], finish_reason := none, usage := none } items

/-! ## Auth manager embedding (src/kiro/auth.py)

Timestamps are epoch seconds (`ℤ`).  The refresh HTTP round-trip is modelled
by an environment oracle `respond : ℕ → RefreshOutcome` indexed by a
per-state call counter `calls`, so "the n-th refresh network call" has
outcome `respond n`; the credential store (SQLite `auth_kv` or the MongoDB
collection) is a map `String → Option Account` carried in the state.
Python string truthiness (`if not self._x`) is modelled by `optTruthy`. -/

/-- Authentication mechanism tag (auth.py `AuthType`). -/
inductive AuthType where
  | kiro_desktop : AuthType
  | aws_sso_oidc : AuthType
deriving DecidableEq

/-- A pooled account record (auth.py `_build_account_from_sqlite_row`,
lines 365-414); the fields no verified claim reads (`sso_region`, `scopes`,
`provider`) are omitted. -/
structure Account where
  key : String
  access_token : Option String := none
  refresh_token : Option String := none
  profile_arn : Option String := none
  expires_at : Option ℤ := none
  client_id : Option String := none
  client_secret : Option String := none
  auth_type : AuthType := .kiro_desktop
  quarantine_until : Option ℤ := none
deriving DecidableEq

/-- Python truthiness of an optional string (`if not value`). -/
def optTruthy : Option String → Bool
  | none => false
  | some s => s != ""

/-- Outcome of one refresh HTTP round-trip.  `ok` carries `accessToken`
(the empty string models a 200 response without an `accessToken` field,
which raises `ValueError`), the optional rotated `refreshToken`, `expiresIn`
(callers see the 3600 default already applied) and the optional
`profileArn`. -/
inductive RefreshOutcome where
  | ok : String → Option String → ℤ → Option String → RefreshOutcome
  | httpError : ℕ → RefreshOutcome

/-- The `KiroAuthManager` state: the account pool with its round-robin
cursor, the request-scoped account binding (`ContextVar`), the active-account
projection, the mechanism tag, whether the credential source is KV-backed
(`self._sqlite_db or self._auth_source == "mongodb"`), the quarantine window,
the credential store, and the refresh-call counter used by the oracle. -/
structure AuthState where
  account_pool : List Account
  round_robin_index : ℤ
  request_account_key : Option String
  sqlite_token_key : Option String
  access_token : Option String
  refresh_token : Option String
  profile_arn : Option String
  expires_at : Option ℤ
  client_id : Option String
  client_secret : Option String
  auth_type : AuthType
  kv_backed : Bool
  quarantine_seconds : ℤ
  store : String → Option Account
  calls : ℕ

/-- The ambient environment: current time, `TOKEN_REFRESH_THRESHOLD`, and the
network oracle for refresh calls. -/
structure AuthEnv where
  now : ℤ
  refresh_threshold : ℤ
  respond : ℕ → RefreshOutcome

/-- Result of a refresh protocol run: normal return, `httpx.HTTPStatusError`
with a status code, or `ValueError` with a message. -/
inductive RefreshResult where
  | success : RefreshResult
  | httpStatusError : ℕ → RefreshResult
  | valueError : String → RefreshResult
deriving DecidableEq

/-- Exceptions escaping `get_access_token` / `force_refresh`. -/
inductive AuthError where
  | httpStatus : ℕ → AuthError
  | valueError : String → AuthError
deriving DecidableEq

/-- Embedding of `_set_active_account` (auth.py lines 416-432). -/
def set_active_account (st : AuthState) (account : Account) : AuthState :=
  { st with sqlite_token_key := some account.key,
            access_token := account.access_token,
            refresh_token := account.refresh_token,
            profile_arn := account.profile_arn,
            expires_at := account.expires_at,
            client_id := account.client_id,
            client_secret := account.client_secret,
            auth_type := account.auth_type }

/-- The active-account projection written back as a store record
(used by `save_credentials`). -/
def activeAccountRecord (st : AuthState) (key : String) : Account :=
  { key := key, access_token := st.access_token,
    refresh_token := st.refresh_token, profile_arn := st.profile_arn,
    expires_at := st.expires_at, client_id := st.client_id,
    client_secret := st.client_secret, auth_type := st.auth_type,
    quarantine_until := none }

/-- Copy the active scalar fields into the first pool account whose key
matches (auth.py `_sync_active_account_state` loop, lines 439-451). -/
def syncAccountList (st : AuthState) (key : String) : List Account → List Account
  | [] => []
  | a :: rest =>
    if a.key = key then
      { a with access_token := st.access_token,
               refresh_token := st.refresh_token,
               profile_arn := st.profile_arn,
               expires_at := st.expires_at,
               client_id := st.client_id,
               client_secret := st.client_secret,
               auth_type := st.auth_type } :: rest
    else a :: syncAccountList st key rest

/-- Embedding of `_sync_active_account_state` (auth.py lines 434-451). -/
def sync_active_account_state (st : AuthState) : AuthState :=
  if !optTruthy st.sqlite_token_key then st
  else { st with account_pool := syncAccountList st (st.sqlite_token_key.getD "") st.account_pool }

/-- Embedding of `_find_account_by_key` (auth.py lines 453-460). -/
def find_account_by_key (pool : List Account) (key : Option String) : Option Account :=
  if !optTruthy key then none
  else pool.find? (fun a => a.key == key.getD "")

/-- Embedding of `_is_account_eligible` (auth.py lines 462-467). -/
def is_account_eligible (now : ℤ) (account : Account) : Bool :=
  match account.quarantine_until with
  | none => true
  | some t => decide (t ≤ now)

/-- The `for _ in range(total)` sweep of `_select_next_account_locked`
(auth.py lines 480-484): advance the cursor and return the first eligible
account, carrying the cursor value reached. -/
def selectLoop (now : ℤ) (pool : List Account) : ℤ → ℕ → ℤ × Option Account
  | idx, 0 => (idx, none)
  | idx, fuel + 1 =>
    let total : ℤ := pool.length
    let idx1 := (idx + 1) % total
    match pool[idx1.toNat]? with
    | some candidate =>
      if is_account_eligible now candidate then (idx1, some candidate)
      else selectLoop now pool idx1 fuel
    | none => (idx1, none)

/-- `quarantine_until = None` on every account (auth.py lines 486-487). -/
def clearQuarantines (pool : List Account) : List Account :=
  pool.map fun a => { a with quarantine_until := none }

/-- Embedding of `_select_next_account_locked` (auth.py lines 469-489),
explicit in the pool and cursor it reads and writes.  Returns the selected
account together with the updated pool and cursor. -/
def select_next_account_locked (now : ℤ) (pool : List Account) (idx : ℤ) :
    Option Account × List Account × ℤ :=
  if pool.isEmpty then (none, pool, idx)
  else
    let total : ℤ := pool.length
    match selectLoop now pool idx pool.length with
    | (idxAfter, some a) => (some a, pool, idxAfter)
    | (idxAfter, none) =>
      let cleared := clearQuarantines pool
      let idx1 := (idxAfter + 1) % total
      (cleared[idx1.toNat]?, cleared, idx1)

/-- Embedding of `_get_or_select_request_account_locked` (auth.py lines
491-513). -/
def get_or_select_request_account_locked (env : AuthEnv) (st : AuthState)
    (force_next : Bool) : Option Account × AuthState :=
  if st.account_pool.isEmpty then (none, st)
  else
    let current :=
      if force_next then none
      else
        match find_account_by_key st.account_pool st.request_account_key with
        | some a => if is_account_eligible env.now a then some a else none
        | none => none
    match current with
    | some a => (some a, st)
    | none =>
      match select_next_account_locked env.now st.account_pool st.round_robin_index with
      | (some a, pool1, idx1) =>
        (some a, { st with account_pool := pool1, round_robin_index := idx1,
                           request_account_key := some a.key })
      | (none, pool1, idx1) =>
        (none, { st with account_pool := pool1, round_robin_index := idx1 })

/-- Set `quarantine_until` on the first pool account with the given key. -/
def setQuarantineFirst (key : String) (value : Option ℤ) : List Account → List Account
  | [] => []
  | a :: rest =>
    if a.key = key then { a with quarantine_until := value } :: rest
    else a :: setQuarantineFirst key value rest

/-- Embedding of `_mark_current_account_unhealthy_locked` (auth.py lines
515-529). -/
def mark_current_account_unhealthy_locked (env : AuthEnv) (st : AuthState) : AuthState :=
  match find_account_by_key st.account_pool st.request_account_key with
  | none => st
  | some a =>
    { st with account_pool :=
        setQuarantineFirst a.key (some (env.now + st.quarantine_seconds)) st.account_pool }

/-- Embedding of `_mark_current_account_healthy_locked` (auth.py lines
531-537). -/
def mark_current_account_healthy_locked (st : AuthState) : AuthState :=
  match find_account_by_key st.account_pool st.request_account_key with
  | none => st
  | some a =>
    { st with account_pool := setQuarantineFirst a.key none st.account_pool }

/-- Replace the first pool account with the given key by the reloaded store
record, preserving its quarantine state (auth.py lines 587-597 and 685-695). -/
def replaceReloaded (key : String) (record : Account) :
    List Account → Option (List Account × Account)
  | [] => none
  | a :: rest =>
    if a.key = key then
      let refreshed := { record with key := key, quarantine_until := a.quarantine_until }
      some (refreshed :: rest, refreshed)
    else
      match replaceReloaded key record rest with
      | some r => some (a :: r.1, r.2)
      | none => none

/-- Embedding of `_reload_active_account_from_sqlite_locked` /
`_reload_active_account_from_mongodb_locked` (auth.py lines 557-599 and
667-695): fetch the record of the active key from the store, splice it into the
pool keeping the quarantine state, and make it active.  A missing key, a
missing store record or an absent pool entry leaves the state unchanged. -/
def reload_active_account_from_store (st : AuthState) : AuthState :=
  if !optTruthy st.sqlite_token_key then st
  else
    match st.store (st.sqlite_token_key.getD "") with
    | none => st
    | some record =>
      match replaceReloaded (st.sqlite_token_key.getD "") record st.account_pool with
      | none => st
      | some r => set_active_account { st with account_pool := r.1 } r.2

/-- Embedding of `_save_credentials_to_mongodb` / `_save_credentials_to_sqlite`
(auth.py lines 697-746 and 969-1057), restricted to the active-key case: the
source tries the active key first and falls back to other candidate keys
only when the active key has no store record; the fallback chain is not
modelled (no verified claim reaches it), so a save with an absent active-key
record is a no-op. -/
def save_credentials (st : AuthState) : AuthState :=
  if !optTruthy st.sqlite_token_key then st
  else
    match st.store (st.sqlite_token_key.getD "") with
    | none => st
    | some _ =>
      sync_active_account_state
        { st with store := fun k =>
            if k = st.sqlite_token_key.getD "" then
              some (activeAccountRecord st (st.sqlite_token_key.getD ""))
            else st.store k }

/-- Embedding of `is_token_expiring_soon` (auth.py lines 1059-1073). -/
def is_token_expiring_soon (env : AuthEnv) (st : AuthState) : Bool :=
  match st.expires_at with
  | none => true
  | some e => decide (e ≤ env.now + env.refresh_threshold)

/-- Embedding of `is_token_expired` (auth.py lines 1075-1090). -/
def is_token_expired (env : AuthEnv) (st : AuthState) : Bool :=
  match st.expires_at with
  | none => true
  | some e => decide (e ≤ env.now)

/-- Embedding of `_do_aws_sso_oidc_refresh` (auth.py lines 1207-1300): check
required credentials, perform one network call, update the active token
fields, compute expiry `now + expiresIn - 60`, and persist. -/
def do_aws_sso_oidc_refresh (env : AuthEnv) (st : AuthState) : RefreshResult × AuthState :=
  if !optTruthy st.refresh_token then (.valueError "Refresh token is not set", st)
  else if !optTruthy st.client_id then
    (.valueError "Client ID is not set (required for AWS SSO OIDC)", st)
  else if !optTruthy st.client_secret then
    (.valueError "Client secret is not set (required for AWS SSO OIDC)", st)
  else
    let st1 := { st with calls := st.calls + 1 }
    match env.respond st.calls with
    | .httpError status => (.httpStatusError status, st1)
    | .ok accessToken newRefresh expiresIn _ =>
      if accessToken = "" then
        (.valueError "AWS SSO OIDC response does not contain accessToken", st1)
      else
        let st2 := { st1 with
          access_token := some accessToken,
          refresh_token := if optTruthy newRefresh then newRefresh else st1.refresh_token,
          expires_at := some (env.now + expiresIn - 60) }
        (.success, save_credentials st2)

/-- Embedding of `_refresh_token_aws_sso_oidc` (auth.py lines 1170-1205):
on a 400 with a KV-backed store, reload the active account and retry exactly
once; any other failure propagates. -/
def refresh_token_aws_sso_oidc (env : AuthEnv) (st : AuthState) : RefreshResult × AuthState :=
  match do_aws_sso_oidc_refresh env st with
  | (.httpStatusError status, st1) =>
    if status = 400 && st1.kv_backed then
      do_aws_sso_oidc_refresh env (reload_active_account_from_store st1)
    else (.httpStatusError status, st1)
  | r1 => r1

/-- Embedding of `_refresh_token_kiro_desktop` (auth.py lines 1109-1168). -/
def refresh_token_kiro_desktop (env : AuthEnv) (st : AuthState) : RefreshResult × AuthState :=
  if !optTruthy st.refresh_token then (.valueError "Refresh token is not set", st)
  else
    let st1 := { st with calls := st.calls + 1 }
    match env.respond st.calls with
    | .httpError status => (.httpStatusError status, st1)
    | .ok accessToken newRefresh expiresIn newProfileArn =>
      if accessToken = "" then
        (.valueError "Response does not contain accessToken", st1)
      else
        let st2 := { st1 with
          access_token := some accessToken,
          refresh_token := if optTruthy newRefresh then newRefresh else st1.refresh_token,
          profile_arn := if optTruthy newProfileArn then newProfileArn else st1.profile_arn,
          expires_at := some (env.now + expiresIn - 60) }
        (.success, save_credentials st2)

/-- Embedding of `_refresh_token_request` (auth.py lines 1092-1107). -/
def refresh_token_request (env : AuthEnv) (st : AuthState) : RefreshResult × AuthState :=
  match st.auth_type with
  | .aws_sso_oidc => refresh_token_aws_sso_oidc env st
  | .kiro_desktop => refresh_token_kiro_desktop env st

/-- Outcome of one iteration of the `get_access_token` attempt loop. -/
inductive StepOutcome where
  | ret : String → StepOutcome
  | failContinue : AuthError → StepOutcome
  | failRaise : AuthError → StepOutcome

/-- The rotation-or-propagation epilogue shared by every failure branch of
the attempt loop (auth.py lines 1374-1377, 1380-1383, 1385-1389, 1397-1400):
with more than one pooled account, quarantine the current account and
continue; otherwise raise. -/
def failPath (env : AuthEnv) (st : AuthState) (e : AuthError) : StepOutcome × AuthState :=
  if st.account_pool.length > 1 then
    (.failContinue e, mark_current_account_unhealthy_locked env st)
  else (.failRaise e, st)

/-- One iteration of the `for attempt in range(account_attempts)` loop of
`get_access_token` (auth.py lines 1324-1401). -/
def get_access_token_attempt (env : AuthEnv) (st : AuthState) (forceNext : Bool) :
    StepOutcome × AuthState :=
  let sel := get_or_select_request_account_locked env st forceNext
  let st1 :=
    match sel.1 with
    | some a => set_active_account sel.2 a
    | none => sel.2
  if optTruthy st1.access_token && !is_token_expiring_soon env st1 then
    (.ret (st1.access_token.getD ""),
     sync_active_account_state (mark_current_account_healthy_locked st1))
  else
    let st2 :=
      if st1.kv_backed && is_token_expiring_soon env st1 then
        reload_active_account_from_store st1
      else st1
    if optTruthy st2.access_token && !is_token_expiring_soon env st2 then
      (.ret (st2.access_token.getD ""),
       sync_active_account_state (mark_current_account_healthy_locked st2))
    else
      let r := refresh_token_request env st2
      let st3 := r.2
      match r.1 with
      | .success =>
        if optTruthy st3.access_token then
          (.ret (st3.access_token.getD ""),
           sync_active_account_state (mark_current_account_healthy_locked st3))
        else failPath env st3 (.valueError "Failed to obtain access token")
      | .httpStatusError status =>
        if status = 400 && st3.kv_backed then
          if optTruthy st3.access_token && !is_token_expired env st3 then
            (.ret (st3.access_token.getD ""),
             sync_active_account_state (mark_current_account_healthy_locked st3))
          else
            failPath env st3 (.valueError "Token expired and refresh failed")
        else failPath env st3 (.httpStatus status)
      | .valueError msg => failPath env st3 (.valueError msg)

/-- The attempt loop of `get_access_token`, with the remaining attempt count
as fuel and the `last_error` accumulator (auth.py lines 1320-1405). -/
def gatLoop (env : AuthEnv) :
    ℕ → Bool → Option AuthError → AuthState → Except AuthError String × AuthState
  | 0, _, lastError, st =>
    (.error (lastError.getD (.valueError "Failed to obtain access token")), st)
  | fuel + 1, forceNext, _lastError, st =>
    match get_access_token_attempt env st forceNext with
    | (.ret token, st1) => (.ok token, st1)
    | (.failRaise e, st1) => (.error e, st1)
    | (.failContinue e, st1) => gatLoop env fuel true (some e) st1

/-- Embedding of `get_access_token` (auth.py lines 1302-1405): at most
`max(len(pool), 1)` attempts, `force_next` on every attempt after the
first. -/
def get_access_token (env : AuthEnv) (st : AuthState) : Except AuthError String × AuthState :=
  gatLoop env (max st.account_pool.length 1) false none st

/-- Embedding of `force_refresh` (auth.py lines 1407-1421): a single
unconditional `_refresh_token_request`, raising on failure or on a missing
access token; no selection, rotation or quarantine logic. -/
def force_refresh (env : AuthEnv) (st : AuthState) : Except AuthError String × AuthState :=
  match refresh_token_request env st with
  | (.httpStatusError status, st1) => (.error (.httpStatus status), st1)
  | (.valueError msg, st1) => (.error (.valueError msg), st1)
  | (.success, st1) =>
    if !optTruthy st1.access_token then
      (.error (.valueError "Failed to obtain access token during force refresh"), st1)
    else (.ok (st1.access_token.getD ""), st1)

/-! ## Specification-side descriptions for the user-message split -/

/-- Specification-side description (C7): the text renderings of the
non-`tool_result` dict blocks, in block order. -/
def userTextPieces (blocks : List ABlock) : List String :=
  blocks.filterMap fun b =>
    match b with
    | .text t => some (t.getD "")
    | .otherBlock v => some (anthropic_content_to_text v)
    | _ => none

/-- Specification-side description (C7): one `tool` message per `tool_result`
block, in block order, with `tool_call_id` equal to the `tool_use_id` of
the block. -/
def toolResultMessages (blocks : List ABlock) : List ChatMessage :=
  blocks.filterMap fun b =>
    match b with
    | .toolResult tuid content =>
      some { role := "tool",
             content := .strM (anthropic_content_to_text (content.getD .nullv)),
             tool_call_id := some (tuid.getD "") }
    | _ => none

/-! ## Specification-side descriptions for round-robin selection -/

/-- Specification-side description (C5): the cursor value probed at sweep
step `m` of `_select_next_account_locked` when the cursor starts at `i`. -/
def probeIndex (pool : List Account) (i : ℤ) (m : ℕ) : ℤ :=
  (i + 1 + m) % (pool.length : ℤ)

/-- Specification-side description (C5): eligibility of the account probed at
sweep step `m`. -/
def probeEligible (now : ℤ) (pool : List Account) (i : ℤ) (m : ℕ) : Bool :=
  match pool[(probeIndex pool i m).toNat]? with
  | some a => is_account_eligible now a
  | none => false

/-- Specification-side description (C5): the first sweep step (below `fuel`)
whose probed account is eligible. -/
def firstEligibleStep (now : ℤ) (pool : List Account) (i : ℤ) (fuel : ℕ) : Option ℕ :=
  (List.range fuel).find? (probeEligible now pool i)

/-- Specification-side description (C5) of `_select_next_account_locked` on a
non-empty pool: selection always returns an account; when some probed account
within pool-size steps is eligible, the first such account is returned with
the cursor advanced to its position and the pool untouched; otherwise every
quarantine is cleared and the account right after the starting cursor is
returned.  The new cursor is always a valid index. -/
def SelectNextSpec (now : ℤ) (pool : List Account) (i : ℤ) : Prop :=
  (∃ a pool2 i2, select_next_account_locked now pool i = (some a, pool2, i2)
      ∧ 0 ≤ i2 ∧ i2 < (pool.length : ℤ) ∧ i2.toNat < pool2.length)
  ∧ (∀ m, firstEligibleStep now pool i pool.length = some m →
      select_next_account_locked now pool i
        = (pool[(probeIndex pool i m).toNat]?, pool, probeIndex pool i m))
  ∧ (firstEligibleStep now pool i pool.length = none →
      select_next_account_locked now pool i
        = ((clearQuarantines pool)[(probeIndex pool i 0).toNat]?,
           clearQuarantines pool, probeIndex pool i 0))

/-- Specification-side description (C1): the selection state `force_refresh`
may not disturb — the request-scoped account binding, the round-robin cursor
and the quarantine state of every account. -/
def SelInv (s t : AuthState) : Prop :=
  t.request_account_key = s.request_account_key
  ∧ t.round_robin_index = s.round_robin_index
  ∧ t.account_pool.map Account.quarantine_until = s.account_pool.map Account.quarantine_until

/-- Concrete two-account fixture (C1): the bound account `"a"` holds an
expired token; account `"b"` holds a fresh one. -/
def acctA : Account :=
  { key := "a", access_token := some "tokA-old", refresh_token := some "rtA",
    expires_at := some 0 }

/-- Second fixture account with a token valid far beyond the threshold. -/
def acctB : Account :=
  { key := "b", access_token := some "tokB", refresh_token := some "rtB",
    expires_at := some 10000 }

/-- Concrete environment (C1): every refresh network call fails with 500. -/
def envFail : AuthEnv :=
  { now := 100, refresh_threshold := 600, respond := fun _ => .httpError 500 }

/-- Concrete manager state (C1): the pool `[acctA, acctB]`, the request bound
to `"a"` whose expired token is active, file-backed desktop-refresh mode. -/
def stTwoAccounts : AuthState :=
  { account_pool := [acctA, acctB], round_robin_index := 0,
    request_account_key := some "a", sqlite_token_key := some "a",
    access_token := some "tokA-old", refresh_token := some "rtA",
    profile_arn := none, expires_at := some 0, client_id := none,
    client_secret := none, auth_type := .kiro_desktop, kv_backed := false,
    quarantine_seconds := 60, store := fun _ => none, calls := 0 }

/-- Concrete device-oauth fixture (C6): the pooled account record with an
expiring token. -/
def acctDegr : Account :=
  { key := "kirocli:social:token", access_token := some "oldTok",
    refresh_token := some "rt-old", expires_at := some 1200 }

/-- Concrete store record (C6): the freshly persisted credentials, still
expiring soon but not yet expired. -/
def srecDegr : Account :=
  { key := "kirocli:social:token", access_token := some "cachedTok",
    refresh_token := some "rt-new", expires_at := some 1300,
    client_id := some "cid", client_secret := some "cs",
    auth_type := .aws_sso_oidc }

/-- Concrete environment (C6): every refresh call answers 400. -/
def envDegr : AuthEnv :=
  { now := 1000, refresh_threshold := 600, respond := fun _ => .httpError 400 }

/-- Concrete manager state (C6): single-account KV-backed device-oauth pool
bound to the account, with the store holding `srecDegr`. -/
def stDegr : AuthState :=
  { account_pool := [acctDegr], round_robin_index := 0,
    request_account_key := some "kirocli:social:token",
    sqlite_token_key := some "kirocli:social:token",
    access_token := some "oldTok", refresh_token := some "rt-old",
    profile_arn := none, expires_at := some 1200, client_id := none,
    client_secret := none, auth_type := .aws_sso_oidc, kv_backed := true,
    quarantine_seconds := 60,
    store := fun s => if s = "kirocli:social:token" then some srecDegr else none,
    calls := 0 }

/-! # Theorems -/

/-- C4: For every pricing row and every usage payload with non-negative
integer token counts, `calculate_charge_from_usage` returns exactly
`((prompt*input_price + completion*output_price + cache_write*cache_write_price
+ cache_hit*cache_hit_price) / 1_000_000) * multiplier`, clamped below at
zero and quantized with round-half-up to `BILLING_DECIMAL_PLACES` fractional
digits, in exact rational arithmetic. -/
theorem calculate_charge_from_usage_closed_form (dp : ℤ) (pricing : ModelPricing)
    (p c w h : ℕ) (iT oT cwT chT : Option ℚ) :
    calculate_charge_from_usage true dp pricing
      { prompt_tokens := some (p : ℚ), input_tokens := iT,
        completion_tokens := some (c : ℚ), output_tokens := oT,
        cache_write_tokens := some (w : ℚ), cache_creation_input_tokens := cwT,
        cache_hit_tokens := some (h : ℚ), cache_read_input_tokens := chT }
      = quantize_decimal dp
          (max ((((p : ℚ) * pricing.input_price_per_mtok
                  + (c : ℚ) * pricing.output_price_per_mtok
                  + (w : ℚ) * pricing.cache_write_price_per_mtok
                  + (h : ℚ) * pricing.cache_hit_price_per_mtok) / 1000000)
                * pricing.billing_multiplier) 0) := by
  simp [calculate_charge_from_usage, extract_usage_tokens, dictGet2,
    max_eq_left, Nat.cast_nonneg]

/-- C8: Charge computation is invariant under the spelling of the usage
field names: the OpenAI spellings and the Anthropic spellings of the same
token counts produce the same charge. -/
theorem calculate_charge_spelling_invariant (enabled : Bool) (dp : ℤ)
    (pricing : ModelPricing) (p c w h : ℚ) :
    calculate_charge_from_usage enabled dp pricing
      { prompt_tokens := some p, completion_tokens := some c,
        cache_write_tokens := some w, cache_hit_tokens := some h }
      = calculate_charge_from_usage enabled dp pricing
      { input_tokens := some p, output_tokens := some c,
        cache_creation_input_tokens := some w, cache_read_input_tokens := some h } := rfl

/-- The S6-style concrete charge: pricing `(3, 14, 3.75, 0.3, 1.1)`, usage
`prompt=1000, completion=500`, six decimal places, gives `0.011`. -/
lemma charge_S6_eval :
    calculate_charge_from_usage true 6
      { input_price_per_mtok := 3, output_price_per_mtok := 14,
        cache_write_price_per_mtok := 15/4, cache_hit_price_per_mtok := 3/10,
        billing_multiplier := 11/10 }
      { prompt_tokens := some 1000, completion_tokens := some 500 } = 11/1000 := by
  have ht : Int.toNat (max (6:ℤ) 0) = 6 := rfl
  simp [calculate_charge_from_usage, extract_usage_tokens, dictGet2,
    quantize_decimal, roundHalfUp, ht]
  norm_num

/-- `float(Decimal("0.011"))` is not `0.011`: the nearest binary64 value is
`6341068275337658 / 2^59`. -/
lemma roundFloat64_eleven_thousandths :
    roundFloat64 (11/1000) = 6341068275337658/576460752303423488 := by
  have ha : ((11:ℚ)/1000).num.toNat = 11 := by
    have h : ((11:ℚ)/1000).num = 11 := by norm_num
    rw [h]; rfl
  have hb : ((11:ℚ)/1000).den = 1000 := by norm_num
  have hl1 : natLog2 11 11 = 3 := by decide
  have hl2 : natLog2 1000 1000 = 9 := by decide
  have hf : floorLog2 (11/1000) = -7 := by
    rw [floorLog2, ha, hb, hl1, hl2]
    norm_num [pow2z]
  have hre : roundHalfEven ((11:ℚ)/1000 * pow2z (52 - (-7))) = 6341068275337658 := by
    have hp : pow2z (52 - (-7)) = 576460752303423488 := by norm_num [pow2z]
    rw [hp, roundHalfEven]
    have hfl : ⌊(11:ℚ)/1000 * 576460752303423488⌋ = 6341068275337658 := by norm_num
    rw [hfl]
    norm_num
  rw [roundFloat64, if_neg (by norm_num), if_pos (by norm_num), roundFloat64Pos, hf, hre]
  norm_num [pow2z]

/-- The conditional update at balance `1`, amount `0.011`: succeeds, leaving
`1 - float(0.011)`. -/
lemma deduct_atomic_S6_eval :
    deduct_credits_atomic (some (.val 1)) (11/1000)
      = (true, some (.val (1 - 6341068275337658/576460752303423488))) := by
  simp only [deduct_credits_atomic, roundFloat64_eleven_thousandths]
  norm_num

/-- C3 counterexample: With pricing `(3, 14, 3.75, 0.3, 1.1)`, usage
`prompt=1000, completion=500` and ledger balance `1`, the deduction succeeds
with charge `0.011` but the resulting balance is **not** `1 - 0.011`: the
ledger was decremented by `float(0.011) ≠ Decimal("0.011")`. -/
theorem deduct_decrements_by_float_counterexample :
    (deduct_credits_for_usage true 6
      { input_price_per_mtok := 3, output_price_per_mtok := 14,
        cache_write_price_per_mtok := 15/4, cache_hit_price_per_mtok := 3/10,
        billing_multiplier := 11/10 }
      { prompt_tokens := some 1000, completion_tokens := some 500 }
      (some (.val 1))).1 = .ok (11/1000)
    ∧ (deduct_credits_for_usage true 6
      { input_price_per_mtok := 3, output_price_per_mtok := 14,
        cache_write_price_per_mtok := 15/4, cache_hit_price_per_mtok := 3/10,
        billing_multiplier := 11/10 }
      { prompt_tokens := some 1000, completion_tokens := some 500 }
      (some (.val 1))).2 ≠ some (.val (1 - 11/1000)) := by
  have h : deduct_credits_for_usage true 6
      { input_price_per_mtok := 3, output_price_per_mtok := 14,
        cache_write_price_per_mtok := 15/4, cache_hit_price_per_mtok := 3/10,
        billing_multiplier := 11/10 }
      { prompt_tokens := some 1000, completion_tokens := some 500 }
      (some (.val 1))
      = (.ok (11/1000), some (.val (1 - 6341068275337658/576460752303423488))) := by
    simp only [deduct_credits_for_usage, charge_S6_eval, deduct_atomic_S6_eval]
    norm_num
  rw [h]
  refine ⟨rfl, ?_⟩
  simp only [ne_eq, Option.some.injEq, BalanceField.val.injEq]
  norm_num

/-- C3 amended: The charge is computed in exact decimal arithmetic,
but the atomic deduction is performed on the binary-float image of the
charge: for a positive charge, the ledger row is decremented by
`float(charge)` under the predicate `balance >= float(charge)`; the
insufficient-credits error is raised exactly when that conditional update
matches no row (a balance below `float(charge)`, a missing row, a missing
balance field or a non-numeric balance), the ledger being left unchanged in
that case. -/
theorem deduct_credits_for_usage_float_semantics (enabled : Bool) (dp : ℤ)
    (pricing : ModelPricing) (usage : UsageDict) (b charge f : ℚ)
    (hc : calculate_charge_from_usage enabled dp pricing usage = charge)
    (hf : roundFloat64 charge = f)
    (hpos : 0 < charge) :
    (f ≤ b →
      deduct_credits_for_usage enabled dp pricing usage (some (.val b))
        = (.ok charge, some (.val (b - f))))
    ∧ (b < f →
      deduct_credits_for_usage enabled dp pricing usage (some (.val b))
        = (.error "InsufficientCreditsError", some (.val b)))
    ∧ ∀ doc : Option BalanceField, (∀ x : ℚ, doc ≠ some (.val x)) →
      deduct_credits_for_usage enabled dp pricing usage doc
        = (.error "InsufficientCreditsError", doc) := by
  refine ⟨?_, ?_, ?_⟩
  · intro hfb
    simp only [deduct_credits_for_usage, hc, deduct_credits_atomic, hf,
      if_neg (not_le.mpr hpos), if_pos hfb]
    simp
  · intro hbf
    simp only [deduct_credits_for_usage, hc, deduct_credits_atomic, hf,
      if_neg (not_le.mpr hpos), if_neg (not_le.mpr hbf)]
    simp
  · intro doc hdoc
    match doc with
    | none =>
      simp only [deduct_credits_for_usage, hc, deduct_credits_atomic,
        if_neg (not_le.mpr hpos)]
      simp
    | some .missing =>
      simp only [deduct_credits_for_usage, hc, deduct_credits_atomic,
        if_neg (not_le.mpr hpos)]
      simp
    | some .invalid =>
      simp only [deduct_credits_for_usage, hc, deduct_credits_atomic,
        if_neg (not_le.mpr hpos)]
      simp
    | some (.val x) => exact absurd rfl (hdoc x)

/-- Witness for `deduct_credits_for_usage_float_semantics` at the concrete
S6-style input. -/
theorem deduct_credits_for_usage_float_semantics_witness :
    calculate_charge_from_usage true 6
      { input_price_per_mtok := 3, output_price_per_mtok := 14,
        cache_write_price_per_mtok := 15/4, cache_hit_price_per_mtok := 3/10,
        billing_multiplier := 11/10 }
      { prompt_tokens := some 1000, completion_tokens := some 500 } = 11/1000
    ∧ (0:ℚ) < 11/1000
    ∧ deduct_credits_for_usage true 6
      { input_price_per_mtok := 3, output_price_per_mtok := 14,
        cache_write_price_per_mtok := 15/4, cache_hit_price_per_mtok := 3/10,
        billing_multiplier := 11/10 }
      { prompt_tokens := some 1000, completion_tokens := some 500 }
      (some (.val 1))
      = (.ok (11/1000), some (.val (1 - 6341068275337658/576460752303423488))) :=
  ⟨charge_S6_eval, by norm_num,
   (deduct_credits_for_usage_float_semantics true 6
      { input_price_per_mtok := 3, output_price_per_mtok := 14,
        cache_write_price_per_mtok := 15/4, cache_hit_price_per_mtok := 3/10,
        billing_multiplier := 11/10 }
      { prompt_tokens := some 1000, completion_tokens := some 500 }
      1 (11/1000) (6341068275337658/576460752303423488)
      charge_S6_eval roundFloat64_eleven_thousandths (by norm_num)).1
    (by norm_num)⟩

/-- C10: A user with no credit-balance row, or whose balance field is
missing or not convertible to a decimal, is treated as having insufficient
credits: `has_sufficient_credits` is false for every required amount
(including zero), and with billing enforcement enabled the preflight check
rejects any positive requirement for such a user. -/
theorem missing_balance_insufficient (doc : Option BalanceField)
    (hdoc : doc = none ∨ doc = some .missing ∨ doc = some .invalid) :
    (∀ required : ℚ, has_sufficient_credits doc required = false)
    ∧ ∀ required : ℚ, 0 < required →
        ensure_user_has_sufficient_credits true true doc required
          = .error "InsufficientCreditsError" := by
  have hb : get_credit_balance doc = none := by
    rcases hdoc with h | h | h <;> subst h <;> rfl
  constructor
  · intro r
    simp [has_sufficient_credits, hb]
  · intro r hr
    simp [ensure_user_has_sufficient_credits, has_sufficient_credits, hb,
      not_le.mpr hr]

/-- Witness for `missing_balance_insufficient`: the missing-row case at
required amount `1`. -/
theorem missing_balance_insufficient_witness :
    has_sufficient_credits none 1 = false
    ∧ ensure_user_has_sufficient_credits true true none 1
        = .error "InsufficientCreditsError" :=
  ⟨(missing_balance_insufficient none (Or.inl rfl)).1 1,
   (missing_balance_insufficient none (Or.inl rfl)).2 1 (by norm_num)⟩

/-- Every `tool_use` block start emitted by `emitToolBlocks` carries an
object-valued `input`. -/
lemma emitToolBlocks_input_isObj (loads : String → Option Json)
    (tcs : List ToolCallDelta) :
    ∀ idx i id name input,
      AnthEvent.content_block_start_tool i id name input ∈ (emitToolBlocks loads idx tcs).1 →
      input.isObj = true := by
  induction tcs with
  | nil => intro idx i id name input hmem; simp [emitToolBlocks] at hmem
  | cons tc rest ih =>
    intro idx i id name input hmem
    simp only [emitToolBlocks, List.mem_cons] at hmem
    rcases hmem with h | h | h
    · cases h
      unfold safe_json_loads
      cases hl : loads (argsOrEmptyObj tc.arguments) with
      | none => rfl
      | some parsed => cases parsed <;> rfl
    · cases h
    · exact ih (idx + 1) i id name input h

/-- The closing events contain no `tool_use` block start. -/
lemma encodeClosing_no_tool_start (st : EncState) :
    ∀ i id name input,
      AnthEvent.content_block_start_tool i id name input ∉ encodeClosing st := by
  intro i id name input h
  unfold encodeClosing at h
  by_cases hb : st.text_block_open <;> simp [hb] at h

/-- Every `tool_use` block start emitted by the encoder loop carries an
object-valued `input`. -/
lemma encodeLoop_input_isObj (loads : String → Option Json)
    (items : List SSEItem) :
    ∀ st i id name input,
      AnthEvent.content_block_start_tool i id name input ∈ encodeLoop loads st items →
      input.isObj = true := by
  induction items with
  | nil =>
    intro st i id name input hmem
    exact absurd hmem (encodeClosing_no_tool_start st i id name input)
  | cons item rest ih =>
    intro st i id name input hmem
    match item with
    | .notData => exact ih _ i id name input hmem
    | .doneOrEmpty => exact ih _ i id name input hmem
    | .malformed => exact ih _ i id name input hmem
    | .raisesError msg => simp [encodeLoop] at hmem
    | .chunk c =>
      simp only [encodeLoop] at hmem
      split at hmem
      · simp only [List.mem_append] at hmem
        rcases hmem with ((htext | hstop) | hemit) | hloop
        · cases hc : c.content with
          | none => rw [hc] at htext; simp at htext
          | some t =>
            rw [hc] at htext
            by_cases ht : t = "" <;> simp [ht] at htext
        · split at hstop <;> simp at hstop
        · exact emitToolBlocks_input_isObj loads c.tool_calls _ i id name input hemit
        · exact ih _ i id name input hloop
      · simp only [List.mem_append] at hmem
        rcases hmem with htext | hloop
        · cases hc : c.content with
          | none => rw [hc] at htext; simp at htext
          | some t =>
            rw [hc] at htext
            by_cases ht : t = "" <;> simp [ht] at htext
        · exact ih _ i id name input hloop

/-- C9: `_safe_json_loads` is total and always returns a JSON object,
for every parse function standing in for `json.loads`: the parsed value when
it is an object, `{"value": parsed}` for any other parse result, and
`{"_raw": input}` when parsing raises; consequently every `tool_use` block
start emitted by the Anthropic SSE encoder carries an object-valued
`input`. -/
theorem safe_json_loads_always_object :
    (∀ (loads : String → Option Json) (value : String),
      (safe_json_loads loads value).isObj = true)
    ∧ (∀ (loads : String → Option Json) (value : String) (fields : List (String × Json)),
      loads value = some (.obj fields) → safe_json_loads loads value = .obj fields)
    ∧ (∀ (loads : String → Option Json) (value : String) (v : Json),
      loads value = some v → v.isObj = false →
      safe_json_loads loads value = .obj [("value", v)])
    ∧ (∀ (loads : String → Option Json) (value : String),
      loads value = none → safe_json_loads loads value = .obj [("_raw", .str value)])
    ∧ (∀ (loads : String → Option Json) (model : String) (items : List SSEItem)
        (i : ℕ) (id name : String) (input : Json),
      AnthEvent.content_block_start_tool i id name input
        ∈ stream_openai_sse_to_anthropic_sse loads model items →
      input.isObj = true) := by
  refine ⟨?_, ?_, ?_, ?_, ?_⟩
  · intro loads value
    unfold safe_json_loads
    cases hl : loads value with
    | none => rfl
    | some parsed => cases parsed <;> rfl
  · intro loads value fields hl
    unfold safe_json_loads
    rw [hl]
  · intro loads value v hl hobj
    unfold safe_json_loads
    rw [hl]
    cases v <;> simp_all [Json.isObj]
  · intro loads value hl
    unfold safe_json_loads
    rw [hl]
  · intro loads model items i id name input hmem
    simp only [stream_openai_sse_to_anthropic_sse, List.mem_cons] at hmem
    rcases hmem with h | h | h
    · cases h
    · cases h
    · exact encodeLoop_input_isObj loads items _ i id name input h

/-- The block loop agrees with the specification-side split. -/
lemma splitUserBlocks_eq (blocks : List ABlock) :
    splitUserBlocks blocks = (userTextPieces blocks, toolResultMessages blocks) := by
  induction blocks with
  | nil => rfl
  | cons b rest ih =>
    cases b <;>
      simp [splitUserBlocks, userTextPieces, toolResultMessages,
        List.filterMap_cons, ih]

/-- C7: An Anthropic `user` message whose content is a list of blocks is
split: the text-ish blocks (in order) form one `user` message when any exist,
and each `tool_result` block becomes a separate `tool` message whose
`tool_call_id` equals the `tool_use_id` of that block, in the order the blocks
appear, appended after the `user` message. -/
theorem user_message_tool_result_split (blocks : List ABlock) :
    anthropic_messages_to_openai_messages [{ role := "user", content := .listC blocks }]
      = (if userTextPieces blocks = [] then []
         else [{ role := "user", content := .textBlocks (userTextPieces blocks),
                 tool_call_id := none }])
        ++ toolResultMessages blocks := by
  simp only [anthropic_messages_to_openai_messages, convert_anthropic_user_message,
    splitUserBlocks_eq]
  by_cases h : userTextPieces blocks = [] <;> simp [h]

/-- C2, code behaviour at the failing input: When the upstream OpenAI
SSE generator raises mid-stream, the encoder emits the `error` event and
terminates: the stream ends **without** a `message_stop` event, contradicting
the specified `event: error` followed by `event: message_stop`. -/
theorem error_stream_ends_without_message_stop :
    stream_openai_sse_to_anthropic_sse (fun _ => none) "m" [SSEItem.raisesError "boom"]
      = [AnthEvent.message_start "m", AnthEvent.content_block_start_text 0,
         AnthEvent.errorEvent "boom"]
    ∧ AnthEvent.message_stop
        ∉ stream_openai_sse_to_anthropic_sse (fun _ => none) "m" [SSEItem.raisesError "boom"] := by
  refine ⟨rfl, ?_⟩
  intro h
  simp [stream_openai_sse_to_anthropic_sse, encodeLoop] at h

/-- Witness for `safe_json_loads_always_object`: the invalid-JSON case at a
concrete input. -/
theorem safe_json_loads_always_object_witness :
    safe_json_loads (fun _ => none) "not json" = .obj [("_raw", .str "not json")] :=
  safe_json_loads_always_object.2.2.2.1 (fun _ => none) "not json" rfl

/-- Advancing the start cursor by one step shifts the probe sequence. -/
lemma probeIndex_shift (pool : List Account) (i : ℤ) (m : ℕ) :
    probeIndex pool ((i + 1) % (pool.length : ℤ)) m = probeIndex pool i (m + 1) := by
  unfold probeIndex
  push_cast
  calc ((i + 1) % (pool.length : ℤ) + 1 + (m : ℤ)) % (pool.length : ℤ)
      = ((i + 1) % (pool.length : ℤ) + (1 + m)) % (pool.length : ℤ) := by ring_nf
    _ = ((i + 1) + (1 + m)) % (pool.length : ℤ) := Int.emod_add_emod _ _ _
    _ = (i + 1 + ((m : ℤ) + 1)) % (pool.length : ℤ) := by ring_nf

/-- Unfolding of the first-eligible-step search. -/
lemma firstEligibleStep_succ (now : ℤ) (pool : List Account) (i : ℤ) (fuel : ℕ) :
    firstEligibleStep now pool i (fuel + 1)
      = if probeEligible now pool i 0 then some 0
        else (firstEligibleStep now pool ((i + 1) % (pool.length : ℤ)) fuel).map Nat.succ := by
  unfold firstEligibleStep
  rw [List.range_succ_eq_map, List.find?_cons]
  have hfun : (probeEligible now pool i ∘ Nat.succ)
      = probeEligible now pool ((i + 1) % (pool.length : ℤ)) := by
    funext m
    show probeEligible now pool i (m + 1)
      = probeEligible now pool ((i + 1) % (pool.length : ℤ)) m
    unfold probeEligible
    rw [probeIndex_shift]
  cases hp : probeEligible now pool i 0 with
  | true => simp [hp]
  | false =>
    simp only [hp, Bool.false_eq_true, if_neg (Bool.false_ne_true)]
    rw [List.find?_map, hfun]
    simp

/-- The sweep loop of `_select_next_account_locked` finds exactly the first
eligible probed account, or sweeps the full fuel and reports none. -/
lemma selectLoop_spec (now : ℤ) (pool : List Account) (hp : pool ≠ []) :
    ∀ (fuel : ℕ) (i : ℤ),
      (∀ m, firstEligibleStep now pool i fuel = some m →
        selectLoop now pool i fuel
          = (probeIndex pool i m, pool[(probeIndex pool i m).toNat]?))
      ∧ (firstEligibleStep now pool i fuel = none → 0 < fuel →
        selectLoop now pool i fuel = ((i + fuel) % (pool.length : ℤ), none)) := by
  have hL : 0 < (pool.length : ℤ) := by exact_mod_cast List.length_pos.mpr hp
  intro fuel
  induction fuel with
  | zero =>
    intro i
    constructor
    · intro m hm
      simp [firstEligibleStep] at hm
    · intro _ hpos
      exact absurd hpos (by norm_num)
  | succ fuel ih =>
    intro i
    have hidx_nonneg : 0 ≤ (i + 1) % (pool.length : ℤ) := Int.emod_nonneg _ (by omega)
    have hidx_lt : (i + 1) % (pool.length : ℤ) < (pool.length : ℤ) :=
      Int.emod_lt_of_pos _ hL
    have hlt : ((i + 1) % (pool.length : ℤ)).toNat < pool.length := by omega
    have hcand : pool[((i + 1) % (pool.length : ℤ)).toNat]?
        = some (pool[((i + 1) % (pool.length : ℤ)).toNat]) :=
      List.getElem?_eq_getElem hlt
    have hprobe0 : probeIndex pool i 0 = (i + 1) % (pool.length : ℤ) := by
      unfold probeIndex
      norm_num
    have hpe0 : probeEligible now pool i 0
        = is_account_eligible now (pool[((i + 1) % (pool.length : ℤ)).toNat]) := by
      unfold probeEligible
      rw [hprobe0, hcand]
    cases helig : is_account_eligible now (pool[((i + 1) % (pool.length : ℤ)).toNat]) with
    | true =>
      have hsel : selectLoop now pool i (fuel + 1)
          = ((i + 1) % (pool.length : ℤ),
             some (pool[((i + 1) % (pool.length : ℤ)).toNat])) := by
        simp [selectLoop, hcand, helig]
      have hfes : firstEligibleStep now pool i (fuel + 1) = some 0 := by
        rw [firstEligibleStep_succ, hpe0, helig]
        simp
      constructor
      · intro m hm
        rw [hfes] at hm
        injection hm with hm
        subst hm
        rw [hsel, hprobe0, hcand]
      · intro hnone
        rw [hfes] at hnone
        cases hnone
    | false =>
      have hsel : selectLoop now pool i (fuel + 1)
          = selectLoop now pool ((i + 1) % (pool.length : ℤ)) fuel := by
        simp [selectLoop, hcand, helig]
      have hfes : firstEligibleStep now pool i (fuel + 1)
          = (firstEligibleStep now pool ((i + 1) % (pool.length : ℤ)) fuel).map Nat.succ := by
        rw [firstEligibleStep_succ, hpe0, helig]
        exact if_neg (by simp)
      constructor
      · intro m hm
        rw [hfes] at hm
        cases hfes2 : firstEligibleStep now pool ((i + 1) % (pool.length : ℤ)) fuel with
        | none => rw [hfes2] at hm; simp at hm
        | some m2 =>
          rw [hfes2] at hm
          simp at hm
          subst hm
          have hrec := (ih ((i + 1) % (pool.length : ℤ))).1 m2 hfes2
          rw [hsel, hrec, probeIndex_shift]
      · intro hnone hpos
        rw [hfes] at hnone
        have hfes2 : firstEligibleStep now pool ((i + 1) % (pool.length : ℤ)) fuel = none := by
          cases h2 : firstEligibleStep now pool ((i + 1) % (pool.length : ℤ)) fuel with
          | none => rfl
          | some m2 => rw [h2] at hnone; simp at hnone
        rw [hsel]
        cases fuel with
        | zero =>
          simp only [selectLoop, Prod.mk.injEq, and_true]
          norm_num
        | succ f =>
          have hrec := (ih ((i + 1) % (pool.length : ℤ))).2 hfes2 (by omega)
          rw [hrec]
          simp only [Prod.mk.injEq, and_true]
          calc ((i + 1) % (pool.length : ℤ) + ((f + 1 : ℕ) : ℤ)) % (pool.length : ℤ)
              = ((i + 1) + ((f + 1 : ℕ) : ℤ)) % (pool.length : ℤ) :=
                Int.emod_add_emod _ _ _
            _ = (i + ((f + 1 + 1 : ℕ) : ℤ)) % (pool.length : ℤ) := by push_cast; ring_nf

/-- C5: For every non-empty account pool, next-account selection always
returns an account: it advances the round-robin cursor at most pool-size
steps to the first account whose `quarantine_until` is absent or past; if no
account is eligible after a full sweep it clears every `quarantine_until` and
returns the next account in cursor order; and the updated cursor is always a
valid index modulo the pool size. -/
theorem select_next_account_locked_spec (now : ℤ) (pool : List Account) (i : ℤ)
    (hp : pool ≠ []) : SelectNextSpec now pool i := by
  have hL : 0 < (pool.length : ℤ) := by exact_mod_cast List.length_pos.mpr hp
  have hne : pool.isEmpty = false := by
    cases pool with
    | nil => exact absurd rfl hp
    | cons a rest => rfl
  have hspec := selectLoop_spec now pool hp pool.length i
  unfold SelectNextSpec
  cases hfes : firstEligibleStep now pool i pool.length with
  | some m =>
    have hsl := hspec.1 m hfes
    have hpe : probeEligible now pool i m = true := by
      have := List.find?_some hfes
      exact this
    have hpos_nonneg : 0 ≤ probeIndex pool i m := Int.emod_nonneg _ (by omega)
    have hpos_lt : probeIndex pool i m < (pool.length : ℤ) := Int.emod_lt_of_pos _ hL
    obtain ⟨a, hget⟩ : ∃ a, pool[(probeIndex pool i m).toNat]? = some a := by
      cases hg : pool[(probeIndex pool i m).toNat]? with
      | none =>
        unfold probeEligible at hpe
        rw [hg] at hpe
        cases hpe
      | some a => exact ⟨a, rfl⟩
    have hform : select_next_account_locked now pool i
        = (pool[(probeIndex pool i m).toNat]?, pool, probeIndex pool i m) := by
      simp only [select_next_account_locked, hne, hsl, hget]
      simp [hget]
    refine ⟨⟨a, pool, probeIndex pool i m, ?_, hpos_nonneg, hpos_lt, ?_⟩, ?_, ?_⟩
    · rw [hform, hget]
    · omega
    · intro m' hm'
      injection hm' with hm'
      subst hm'
      exact hform
    · intro hnone
      cases hnone
  | none =>
    have hsl := hspec.2 hfes (by omega)
    have hidx1 : (((i + (pool.length : ℤ)) % (pool.length : ℤ)) + 1) % (pool.length : ℤ)
        = probeIndex pool i 0 := by
      unfold probeIndex
      push_cast
      calc ((i + (pool.length : ℤ)) % (pool.length : ℤ) + 1) % (pool.length : ℤ)
          = (i + (pool.length : ℤ) + 1) % (pool.length : ℤ) := Int.emod_add_emod _ _ _
        _ = (i + 1 + 0 + (pool.length : ℤ) * 1) % (pool.length : ℤ) := by ring_nf
        _ = (i + 1 + 0) % (pool.length : ℤ) :=
            Int.add_mul_emod_self_left (i + 1 + 0) (pool.length : ℤ) 1
    have hpos_nonneg : 0 ≤ probeIndex pool i 0 := Int.emod_nonneg _ (by omega)
    have hpos_lt : probeIndex pool i 0 < (pool.length : ℤ) := Int.emod_lt_of_pos _ hL
    have hclen : (clearQuarantines pool).length = pool.length := List.length_map _ _
    have hltc : (probeIndex pool i 0).toNat < (clearQuarantines pool).length := by
      rw [hclen]; omega
    have hget : (clearQuarantines pool)[(probeIndex pool i 0).toNat]?
        = some ((clearQuarantines pool)[(probeIndex pool i 0).toNat]) :=
      List.getElem?_eq_getElem hltc
    have hform : select_next_account_locked now pool i
        = ((clearQuarantines pool)[(probeIndex pool i 0).toNat]?,
           clearQuarantines pool, probeIndex pool i 0) := by
      simp only [select_next_account_locked, hne, hsl]
      simp only [Bool.false_eq_true, if_false]
      rw [hidx1]
    refine ⟨⟨(clearQuarantines pool)[(probeIndex pool i 0).toNat],
        clearQuarantines pool, probeIndex pool i 0, ?_, hpos_nonneg, hpos_lt, ?_⟩, ?_, ?_⟩
    · rw [hform, hget]
    · omega
    · intro m' hm'
      cases hm'
    · intro _
      exact hform

/-- Witness for `select_next_account_locked_spec`: a two-account pool whose
first account is quarantined. -/
theorem select_next_account_locked_spec_witness :
    ([({ key := "a", quarantine_until := some 200 } : Account),
      ({ key := "b" } : Account)] ≠ ([] : List Account))
    ∧ SelectNextSpec 100
        [{ key := "a", quarantine_until := some 200 }, { key := "b" }] 0 :=
  ⟨by simp, select_next_account_locked_spec 100
      [{ key := "a", quarantine_until := some 200 }, { key := "b" }] 0 (by simp)⟩

lemma SelInv_refl (s : AuthState) : SelInv s s := ⟨rfl, rfl, rfl⟩

lemma SelInv_trans {s t u : AuthState} (h1 : SelInv s t) (h2 : SelInv t u) : SelInv s u :=
  ⟨h2.1.trans h1.1, h2.2.1.trans h1.2.1, h2.2.2.trans h1.2.2⟩

lemma syncAccountList_quarantines (st : AuthState) (key : String) :
    ∀ pool : List Account,
      (syncAccountList st key pool).map Account.quarantine_until
        = pool.map Account.quarantine_until := by
  intro pool
  induction pool with
  | nil => rfl
  | cons a rest ih =>
    unfold syncAccountList
    split
    · simp
    · simpa using ih

lemma set_active_account_SelInv (st : AuthState) (a : Account) :
    SelInv st (set_active_account st a) := ⟨rfl, rfl, rfl⟩

lemma sync_active_account_state_SelInv (st : AuthState) :
    SelInv st (sync_active_account_state st) := by
  unfold sync_active_account_state
  split
  · exact SelInv_refl st
  · exact ⟨rfl, rfl, syncAccountList_quarantines st _ st.account_pool⟩

lemma save_credentials_SelInv (st : AuthState) : SelInv st (save_credentials st) := by
  unfold save_credentials
  split
  · exact SelInv_refl st
  · split
    · exact SelInv_refl st
    · refine SelInv_trans ?_ (sync_active_account_state_SelInv _)
      exact ⟨rfl, rfl, rfl⟩

lemma replaceReloaded_quarantines (key : String) (record : Account) :
    ∀ (pool pool2 : List Account) (r : Account),
      replaceReloaded key record pool = some (pool2, r) →
      pool2.map Account.quarantine_until = pool.map Account.quarantine_until := by
  intro pool
  induction pool with
  | nil => intro pool2 r h; simp [replaceReloaded] at h
  | cons a rest ih =>
    intro pool2 r h
    unfold replaceReloaded at h
    split at h
    · injection h with h
      cases h
      simp
    · cases hrec : replaceReloaded key record rest with
      | none => rw [hrec] at h; cases h
      | some pr =>
        rw [hrec] at h
        injection h with h
        cases h
        simp only [List.map_cons, List.cons.injEq, true_and]
        exact ih pr.1 pr.2 hrec

lemma reload_active_account_from_store_SelInv (st : AuthState) :
    SelInv st (reload_active_account_from_store st) := by
  unfold reload_active_account_from_store
  split
  · exact SelInv_refl st
  · split
    · exact SelInv_refl st
    · split
      · exact SelInv_refl st
      · rename_i r heq
        exact ⟨rfl, rfl, replaceReloaded_quarantines _ _ st.account_pool r.1 r.2 heq⟩

lemma do_aws_sso_oidc_refresh_SelInv (env : AuthEnv) (st : AuthState) :
    SelInv st (do_aws_sso_oidc_refresh env st).2 := by
  unfold do_aws_sso_oidc_refresh
  split
  · exact SelInv_refl st
  · split
    · exact SelInv_refl st
    · split
      · exact SelInv_refl st
      · split
        · exact ⟨rfl, rfl, rfl⟩
        · split
          · exact ⟨rfl, rfl, rfl⟩
          · refine SelInv_trans ?_ (save_credentials_SelInv _)
            exact ⟨rfl, rfl, rfl⟩

lemma refresh_token_aws_sso_oidc_SelInv (env : AuthEnv) (st : AuthState) :
    SelInv st (refresh_token_aws_sso_oidc env st).2 := by
  unfold refresh_token_aws_sso_oidc
  split
  · rename_i status st1 heq
    have h1 : SelInv st st1 := by
      have := do_aws_sso_oidc_refresh_SelInv env st
      rw [heq] at this
      exact this
    split
    · exact SelInv_trans h1
        (SelInv_trans (reload_active_account_from_store_SelInv st1)
          (do_aws_sso_oidc_refresh_SelInv env _))
    · exact h1
  · exact do_aws_sso_oidc_refresh_SelInv env st

lemma refresh_token_kiro_desktop_SelInv (env : AuthEnv) (st : AuthState) :
    SelInv st (refresh_token_kiro_desktop env st).2 := by
  unfold refresh_token_kiro_desktop
  split
  · exact SelInv_refl st
  · split
    · exact ⟨rfl, rfl, rfl⟩
    · split
      · exact ⟨rfl, rfl, rfl⟩
      · refine SelInv_trans ?_ (save_credentials_SelInv _)
        exact ⟨rfl, rfl, rfl⟩

lemma refresh_token_request_SelInv (env : AuthEnv) (st : AuthState) :
    SelInv st (refresh_token_request env st).2 := by
  unfold refresh_token_request
  split
  · exact refresh_token_aws_sso_oidc_SelInv env st
  · exact refresh_token_kiro_desktop_SelInv env st

/-- C1 amended: `force_refresh` performs no account rotation: for
every environment and state it leaves the request-scoped account binding,
the round-robin cursor and the quarantine state of every account untouched
(whether the refresh succeeds or fails, the failure propagating as-is), and
on success it returns the newly minted access token. -/
theorem force_refresh_no_rotation (env : AuthEnv) (st : AuthState) :
    SelInv st (force_refresh env st).2
    ∧ ∀ t, (force_refresh env st).1 = .ok t →
        (force_refresh env st).2.access_token = some t := by
  have hinv := refresh_token_request_SelInv env st
  unfold force_refresh
  cases hr : refresh_token_request env st with
  | mk result st1 =>
    rw [hr] at hinv
    cases result with
    | httpStatusError status =>
      refine ⟨hinv, ?_⟩
      intro t ht
      cases ht
    | valueError msg =>
      refine ⟨hinv, ?_⟩
      intro t ht
      cases ht
    | success =>
      by_cases ha : optTruthy st1.access_token
      · simp only [ha, Bool.not_true]
        refine ⟨hinv, ?_⟩
        intro t ht
        simp only [Bool.false_eq_true, if_false] at ht
        injection ht with ht
        subst ht
        cases hacc : st1.access_token with
        | none => rw [hacc] at ha; cases ha
        | some s => simp [hacc]
      · simp only [Bool.not_eq_true] at ha
        simp only [ha, Bool.not_false]
        refine ⟨hinv, ?_⟩
        intro t ht
        simp at ht

/-- C1 counterexample: In a pool of two accounts with the request bound
to account `"a"` whose refresh fails, `force_refresh` propagates the failure
without rotating: the request binding, cursor and quarantine states are
unchanged — while `get_access_token` on the same state does rotate and
returns the token of account `"b"`. -/
theorem force_refresh_does_not_rotate_counterexample :
    stTwoAccounts.account_pool.length = 2
    ∧ (force_refresh envFail stTwoAccounts).1 = .error (.httpStatus 500)
    ∧ (force_refresh envFail stTwoAccounts).2.request_account_key = some "a"
    ∧ (force_refresh envFail stTwoAccounts).2.round_robin_index = 0
    ∧ (force_refresh envFail stTwoAccounts).2.account_pool.map Account.quarantine_until
        = [none, none]
    ∧ (get_access_token envFail stTwoAccounts).1 = .ok "tokB" := by
  exact ⟨rfl, rfl, rfl, rfl, rfl, rfl⟩

lemma gatLoop_one (env : AuthEnv) (forceNext : Bool) (lastError : Option AuthError)
    (st : AuthState) :
    gatLoop env 1 forceNext lastError st
      = match get_access_token_attempt env st forceNext with
        | (.ret token, st1) => (.ok token, st1)
        | (.failRaise e, st1) => (.error e, st1)
        | (.failContinue e, st1) => gatLoop env 0 true (some e) st1 := rfl

lemma selection_single (env : AuthEnv) (st : AuthState) (acct : Account) (k : String)
    (hpool : st.account_pool = [acct])
    (hreq : st.request_account_key = some k)
    (hk : k ≠ "")
    (hkey : acct.key = k)
    (hq : acct.quarantine_until = none) :
    get_or_select_request_account_locked env st false = (some acct, st) := by
  simp [get_or_select_request_account_locked, find_account_by_key, optTruthy,
    is_account_eligible, hpool, hreq, hk, hkey, hq]

/-- C6: With a KV-backed store and a device-oauth account whose reloaded
record still expires soon: when the refresh endpoint answers 400, the manager
reloads the active account from the store and retries exactly once (two
network calls in total); when the second attempt also fails with 400 but the
stored access token is present and not yet past its true expiry,
`get_access_token` returns that cached token instead of raising. -/
theorem get_access_token_400_reload_retry_degrade
    (env : AuthEnv) (st : AuthState) (acct srec : Account) (k tok : String)
    (aexp exp : ℤ)
    (hkv : st.kv_backed = true)
    (hpool : st.account_pool = [acct])
    (hreq : st.request_account_key = some k)
    (hk : k ≠ "")
    (hkey : acct.key = k)
    (hq : acct.quarantine_until = none)
    (haexp : acct.expires_at = some aexp)
    (hasoon : aexp ≤ env.now + env.refresh_threshold)
    (hstore : st.store k = some srec)
    (hsauth : srec.auth_type = .aws_sso_oidc)
    (hsrt : optTruthy srec.refresh_token = true)
    (hscid : optTruthy srec.client_id = true)
    (hscs : optTruthy srec.client_secret = true)
    (hsacc : srec.access_token = some tok)
    (htok : tok ≠ "")
    (hsexp : srec.expires_at = some exp)
    (hsoon : exp ≤ env.now + env.refresh_threshold)
    (hnotexp : env.now < exp)
    (hr0 : env.respond st.calls = .httpError 400)
    (hr1 : env.respond (st.calls + 1) = .httpError 400) :
    (get_access_token env st).1 = .ok tok
    ∧ (get_access_token env st).2.calls = st.calls + 2 := by
  have hsel := selection_single env st acct k hpool hreq hk hkey hq
  have hopt_tok : optTruthy (some tok) = true := by simp [optTruthy, htok]
  have hb1 : (decide (aexp ≤ env.now + env.refresh_threshold)) = true :=
    decide_eq_true hasoon
  have hb2 : (decide (exp ≤ env.now + env.refresh_threshold)) = true :=
    decide_eq_true hsoon
  have hb3 : (decide (exp ≤ env.now)) = false := decide_eq_false (not_le.mpr hnotexp)
  have hfuel : max st.account_pool.length 1 = 1 := by simp [hpool]
  have hoptk : optTruthy (some k) = true := by simp [optTruthy, hk]
  have hstep : get_access_token env st = gatLoop env 1 false none st := by
    rw [get_access_token, hfuel]
  refine ⟨?_, ?_⟩ <;>
    · rw [hstep, gatLoop_one]
      simp [get_access_token_attempt, hsel, set_active_account,
        is_token_expiring_soon, is_token_expired, reload_active_account_from_store,
        replaceReloaded, refresh_token_request, refresh_token_aws_sso_oidc,
        do_aws_sso_oidc_refresh, sync_active_account_state, syncAccountList,
        mark_current_account_healthy_locked, setQuarantineFirst, find_account_by_key,
        hpool, hreq, haexp, hb1, hb2, hb3, hkv, hkey, hq, hstore, hsauth, hsrt,
        hscid, hscs, hsacc, hsexp, hr0, hr1, hopt_tok, hoptk, hk, htok]

/-- Witness for `get_access_token_400_reload_retry_degrade` at the concrete
fixture: two 400s, then the cached store token is returned. -/
theorem get_access_token_400_reload_retry_degrade_witness :
    (get_access_token envDegr stDegr).1 = .ok "cachedTok"
    ∧ (get_access_token envDegr stDegr).2.calls = stDegr.calls + 2 :=
  get_access_token_400_reload_retry_degrade envDegr stDegr acctDegr srecDegr
    "kirocli:social:token" "cachedTok" 1200 1300
    rfl rfl rfl (by decide) rfl rfl rfl (by decide) rfl rfl rfl rfl rfl rfl
    (by decide) rfl (by decide) (by decide) rfl rfl
